import Mathlib
/-!
Verification of the Express authentication API (`auth-api.js`).

The embedding models the service as pure functions over an explicit
in-memory account store (the `users` array of the source).  The external
collaborators are modelled as follows:

* `bcrypt` is a `Hasher` record: `hash` may fail (the source's try/catch
  treats a throwing hash as an internal error) and `compare` checks a
  plaintext against a stored hash.  The concrete model `bcrypt` uses a
  deterministic injective tagging in place of the real salted digest.
* `jsonwebtoken` is modelled by an executable token codec: a token is the
  three dot-separated segments header/claims/signature, the signature
  being a keyed digest of the claims segment, and verification checks the
  structure, the signature and the expiry against the current time.

Strings are processed at the level of their character lists with a
hand-rolled split (mirroring JavaScript `String.prototype.split` with a
single-character separator), so every definition reduces in the kernel.
-/
namespace AuthApi
/-! ### Character-level helpers -/
/-- Split a character list at every occurrence of `sep`, mirroring the
JavaScript `str.split(sep)` semantics: the result is never empty, and
separators at the ends produce empty fields. -/
def splitOnChar (sep : Char) : List Char → List (List Char)
  | [] => [[]]
  | c :: rest =>
    match splitOnChar sep rest with
    | [] => [[c]]
    | g :: gs => if c = sep then [] :: g :: gs else (c :: g) :: gs
/-- Little-endian base-10 digits of `n`, with explicit fuel so that the
definition is structurally recursive and reduces in the kernel. -/
def natDigitsAux : Nat → Nat → List Nat
  | 0, _ => []
  | _, 0 => []
  | fuel + 1, n + 1 => ((n + 1) % 10) :: natDigitsAux fuel ((n + 1) / 10)
def natDigits (n : Nat) : List Nat := natDigitsAux n n
/-- Recombine little-endian base-10 digits. -/
def unDigits : List Nat → Nat
  | [] => 0
  | d :: rest => d + 10 * unDigits rest
/-! ### Numeric field codec

A numeric claim field is encoded as the base-10 digits of `n + 1` (so the
encoding is never empty), each digit rendered as its ASCII character. -/
def fieldEnc (n : Nat) : List Char := (natDigits (n + 1)).map Nat.digitChar
def fieldDec (l : List Char) : Nat := unDigits (l.map (fun c => c.toNat - 48)) - 1
/-! ### String escape codec

A string is encoded character by character (each character as the numeric
encoding of its code point), the pieces joined by `'-'`.  Decoding splits
on `'-'` and reverses the per-character encoding. -/
def escapeChars : List Char → List Char
  | [] => []
  | [c] => fieldEnc c.toNat
  | c :: c2 :: rest => fieldEnc c.toNat ++ '-' :: escapeChars (c2 :: rest)
def unescapeChars (l : List Char) : List Char :=
  if l = [] then []
  else (splitOnChar '-' l).map (fun f => Char.ofNat (fieldDec f))
/-! ### Token codec (model of `jsonwebtoken`)

`jwt.sign({id, username}, JWT_SECRET, {expiresIn: '1h'})` produces a
self-contained signed string of three dot-separated segments
header/claims/signature; the claim set carries the identity together
with `iat = now` and `exp = now + 3600`.  `jwt.verify(token, JWT_SECRET)`
checks the structure, the signature and the expiry (a token is expired
as soon as the current time reaches `exp`) and returns the claims. -/
structure TokenClaims where
  id : Nat
  username : String
  iat : Nat
  exp : Nat
deriving DecidableEq
/-- The claims segment: the four fields joined by `'_'`, numbers in the
numeric field codec and the username escaped. -/
def claimsSeg (c : TokenClaims) : List Char :=
  fieldEnc c.id ++ ('_' :: (escapeChars c.username.data ++ ('_' ::
    (fieldEnc c.iat ++ ('_' :: fieldEnc c.exp)))))
def parseClaims (l : List Char) : Option TokenClaims :=
  match splitOnChar '_' l with
  | [f1, f2, f3, f4] =>
    some ⟨fieldDec f1, String.mk (unescapeChars f2), fieldDec f3, fieldDec f4⟩
  | _ => none
/-- Keyed digest standing in for the HMAC: the secret and the payload,
escaped into the digit/dash alphabet. -/
def macSig (secret : List Char) (payload : List Char) : List Char :=
  escapeChars (secret ++ '.' :: payload)
def signToken (secret : String) (c : TokenClaims) : String :=
  String.mk ("JWT".data ++ ('.' :: (claimsSeg c ++ ('.' ::
    macSig secret.data (claimsSeg c)))))
inductive JwtError where
  | malformed
  | invalidSignature
  | expired
deriving DecidableEq
def jwtVerify (secret : String) (token : String) (now : Nat) :
    Except JwtError TokenClaims :=
  match splitOnChar '.' token.data with
  | [hdr, payload, sig] =>
    if hdr = "JWT".data then
      if sig = macSig secret.data payload then
        match parseClaims payload with
        | some c => if c.exp ≤ now then Except.error JwtError.expired else Except.ok c
        | none => Except.error JwtError.malformed
      else Except.error JwtError.invalidSignature
    else Except.error JwtError.malformed
  | _ => Except.error JwtError.malformed
/-! ### The service (translated from `auth-api.js`)

`users` is the in-memory array; each handler is a pure function of the
store and the request, returning the new store and/or the HTTP response.
`now` stands for the current Unix time at the moment the handler runs. -/
/-- One record of the `users` array: `{id, username, password}` where
`password` holds the bcrypt hash. -/
structure Account where
  id : Nat
  username : String
  password : String
deriving DecidableEq
/-- The observable HTTP response: status code and JSON body.  Every body
of the source is `{message}` optionally extended with `token` (login
success) or `user` (protected route success); absent keys are `none`. -/
structure ApiResponse where
  status : Nat
  message : String
  token : Option String
  user : Option TokenClaims
deriving DecidableEq
/-- A `{message}`-only response. -/
def mkMsg (status : Nat) (message : String) : ApiResponse :=
  ⟨status, message, none, none⟩
/-- Interface of the external `bcrypt` collaborator.  `hash` may throw
(modelled by `Except`), which the handlers' try/catch turns into a 500
response; `compare` checks a plaintext against a stored hash. -/
structure Hasher where
  hash : String → Except Unit String
  compare : String → String → Except Unit Bool
/-- Deterministic stand-in for the bcrypt digest of a password. -/
def bcryptHash (password : String) : String := "$2b$10$" ++ password
/-- The well-behaved bcrypt instance: hashing never throws and `compare`
accepts exactly the plaintext that produced the hash. -/
def bcrypt : Hasher :=
  ⟨fun p => Except.ok (bcryptHash p), fun p h => Except.ok (h == bcryptHash p)⟩
/-- JavaScript falsiness of an optional string body field: absent
(`undefined`) or the empty string. -/
def falsy : Option String → Bool
  | none => true
  | some s => s == ""
/-- The signing secret `process.env.JWT_SECRET || 'clave_secreta_jwt'`,
here the development fallback. -/
def JWT_SECRET : String := "clave_secreta_jwt"
/-- Handler of `POST /api/register`: validate both fields, reject
duplicates, hash the password, then push
`{id: users.length + 1, username, password}`. -/
def register (hasher : Hasher) (users : List Account)
    (username? password? : Option String) : List Account × ApiResponse :=
  if falsy username? || falsy password? then
    (users, mkMsg 400 "Se requiere usuario y contraseña")
  else
    match users.find? (fun u => u.username == username?.getD "") with
    | some _ => (users, mkMsg 409 "El usuario ya existe")
    | none =>
      match hasher.hash (password?.getD "") with
      | Except.error _ => (users, mkMsg 500 "Error interno del servidor")
      | Except.ok hashedPassword =>
        (users ++ [⟨users.length + 1, username?.getD "", hashedPassword⟩],
          mkMsg 201 "Usuario registrado exitosamente")
/-- Handler of `POST /api/login`: validate, look the user up, compare
the password, and on success sign `{id, username}` with a one-hour
expiry. -/
def login (hasher : Hasher) (users : List Account)
    (username? password? : Option String) (now : Nat) : ApiResponse :=
  if falsy username? || falsy password? then
    mkMsg 400 "Se requiere usuario y contraseña"
  else
    match users.find? (fun u => u.username == username?.getD "") with
    | none => mkMsg 401 "Error en la autenticación"
    | some user =>
      match hasher.compare (password?.getD "") user.password with
      | Except.error _ => mkMsg 500 "Error interno del servidor"
      | Except.ok false => mkMsg 401 "Error en la autenticación"
      | Except.ok true =>
        ⟨200, "Autenticación satisfactoria",
          some (signToken JWT_SECRET ⟨user.id, user.username, now, now + 3600⟩), none⟩
/-- Handler of `GET /api/protegido` behind the `verifyToken` middleware:
a falsy `authorization` header yields 403; otherwise the substring after
the first space (`token.split(' ')[1]`) is fed to `jwt.verify`, any
throw yields 401, and success returns the decoded claims as `req.user`. -/
def protegido (authHeader : Option String) (now : Nat) : ApiResponse :=
  match authHeader with
  | none => mkMsg 403 "Token no proporcionado"
  | some h =>
    if h = "" then mkMsg 403 "Token no proporcionado"
    else
      match (splitOnChar ' ' h.data)[1]? with
      | none => mkMsg 401 "Token inválido"
      | some tok =>
        match jwtVerify JWT_SECRET (String.mk tok) now with
        | Except.error _ => mkMsg 401 "Token inválido"
        | Except.ok claims =>
          ⟨200, "Ruta protegida accedida exitosamente", none, some claims⟩
/-! ### Sequential operation traces

The store is shared, sequential state; each request is one of the three
operations.  Only a successful Register changes the store. -/
inductive Op where
  | reg (username? password? : Option String)
  | log (username? password? : Option String) (now : Nat)
  | auth (header : Option String) (now : Nat)
def applyOp (hasher : Hasher) (users : List Account) : Op → List Account × ApiResponse
  | Op.reg u p => register hasher users u p
  | Op.log u p now => (users, login hasher users u p now)
  | Op.auth h now => (users, protegido h now)
def stepStore (hasher : Hasher) (users : List Account) (op : Op) : List Account :=
  (applyOp hasher users op).1
def runOps (hasher : Hasher) (users : List Account) : List Op → List Account
  | [] => users
  | op :: ops => runOps hasher (stepStore hasher users op) ops
/-- The responses observed along a sequence of requests. -/
def runTrace (hasher : Hasher) (users : List Account) : List Op → List ApiResponse
  | [] => []
  | op :: ops =>
    (applyOp hasher users op).2 :: runTrace hasher (stepStore hasher users op) ops
/-- A hasher whose operations throw, to exercise the internal-error
paths of the handlers. -/
def badHasher : Hasher :=
  ⟨fun _ => Except.error (), fun _ _ => Except.error ()⟩
/-! ### The two phases of the register handler

In the source the duplicate check and the insertion are separated by
`await bcrypt.hash(...)`, which yields to the event loop: the handler is
the validation/duplicate-check phase, then the awaited hash, then the
unconditional push.  Concurrent requests interleave at the await. -/
/-- Everything the register handler does before `await bcrypt.hash`:
input validation and the duplicate check, with the early responses. -/
def regCheckPhase (users : List Account) (username? password? : Option String) :
    Except ApiResponse String :=
  if falsy username? || falsy password? then
    Except.error (mkMsg 400 "Se requiere usuario y contraseña")
  else
    match users.find? (fun u => u.username == username?.getD "") with
    | some _ => Except.error (mkMsg 409 "El usuario ya existe")
    | none => Except.ok (username?.getD "")
/-- Everything the register handler does after the hash resolves: push
the record, with no re-check of the username. -/
def regInsertPhase (users : List Account) (username hashed : String) :
    List Account × ApiResponse :=
  (users ++ [⟨users.length + 1, username, hashed⟩],
    mkMsg 201 "Usuario registrado exitosamente")
/-- The store invariant used for induction: ids are bounded by the store
length and all ids and usernames are pairwise distinct. -/
def GoodStore (users : List Account) : Prop :=
  (∀ a ∈ users, a.id ≤ users.length) ∧
  List.Pairwise (fun a b => a.id ≠ b.id ∧ a.username ≠ b.username) users
/-- Decidable equality of `Except` results, for concrete evaluation. -/
instance {ε α : Type} [DecidableEq ε] [DecidableEq α] : DecidableEq (Except ε α) := fun x y =>
  match x, y with
  | Except.ok a, Except.ok b =>
    if h : a = b then isTrue (by rw [h]) else isFalse (by simp [h])
  | Except.error a, Except.error b =>
    if h : a = b then isTrue (by rw [h]) else isFalse (by simp [h])
  | Except.ok a, Except.error b => isFalse (by simp)
  | Except.error a, Except.ok b => isFalse (by simp)

set_option maxRecDepth 100000

/-! ### Library of facts about the embedding -/
theorem splitOnChar_ne_nil (sep : Char) (l : List Char) : splitOnChar sep l ≠ [] := by
  cases l with
  | nil => simp [splitOnChar]
  | cons c rest =>
    simp only [splitOnChar]
    rcases h : splitOnChar sep rest with _ | ⟨g, gs⟩
    · simp
    · by_cases hc : c = sep <;> simp [hc]
theorem splitOnChar_eq_single {sep : Char} {l : List Char} (h : sep ∉ l) :
    splitOnChar sep l = [l] := by
  induction l with
  | nil => rfl
  | cons c rest ih =>
    have hc : c ≠ sep := fun hcs => h (hcs ▸ List.mem_cons_self c rest)
    have hrest : sep ∉ rest := fun hm => h (List.mem_cons_of_mem c hm)
    simp only [splitOnChar, ih hrest]
    simp [hc]
theorem splitOnChar_append {sep : Char} {a : List Char} (b : List Char) (ha : sep ∉ a) :
    splitOnChar sep (a ++ sep :: b) = a :: splitOnChar sep b := by
  induction a with
  | nil =>
    simp only [List.nil_append, splitOnChar]
    rcases h : splitOnChar sep b with _ | ⟨g, gs⟩
    · exact absurd h (splitOnChar_ne_nil sep b)
    · simp
  | cons c rest ih =>
    have hc : c ≠ sep := fun hcs => ha (hcs ▸ List.mem_cons_self c rest)
    have hrest : sep ∉ rest := fun hm => ha (List.mem_cons_of_mem c hm)
    rw [List.cons_append]
    simp only [splitOnChar]
    rw [ih hrest]
    simp [hc]
theorem natDigitsAux_spec : ∀ (fuel n : Nat), n ≤ fuel →
    unDigits (natDigitsAux fuel n) = n ∧ ∀ d ∈ natDigitsAux fuel n, d < 10 := by
  intro fuel
  induction fuel with
  | zero =>
    intro n hn
    have : n = 0 := Nat.le_zero.mp hn
    subst this
    simp [natDigitsAux, unDigits]
  | succ fuel ih =>
    intro n hn
    cases n with
    | zero => simp [natDigitsAux, unDigits]
    | succ m =>
      have hdiv : (m + 1) / 10 ≤ fuel := by
        have h1 : (m + 1) / 10 < m + 1 := Nat.div_lt_self (Nat.succ_pos m) (by omega)
        omega
      have hrec := ih ((m + 1) / 10) hdiv
      refine ⟨?_, ?_⟩
      · simp only [natDigitsAux, unDigits, hrec.1]
        exact Nat.mod_add_div (m + 1) 10
      · intro d hd
        simp only [natDigitsAux, List.mem_cons] at hd
        rcases hd with hd | hd
        · subst hd; exact Nat.mod_lt _ (by omega)
        · exact hrec.2 d hd
theorem unDigits_natDigits (n : Nat) : unDigits (natDigits n) = n :=
  (natDigitsAux_spec n n le_rfl).1
theorem natDigits_lt (n : Nat) : ∀ d ∈ natDigits n, d < 10 :=
  (natDigitsAux_spec n n le_rfl).2
theorem natDigits_succ_ne_nil (n : Nat) : natDigits (n + 1) ≠ [] := by
  simp [natDigits, natDigitsAux]
theorem digitChar_toNat : ∀ d, d < 10 → (Nat.digitChar d).toNat = 48 + d := by decide
theorem digits_map_roundtrip : ∀ (l : List Nat), (∀ d ∈ l, d < 10) →
    (l.map Nat.digitChar).map (fun c => c.toNat - 48) = l := by
  intro l
  induction l with
  | nil => intro _; rfl
  | cons d rest ih =>
    intro h
    have hd : d < 10 := h d (List.mem_cons_self d rest)
    have hrest : ∀ x ∈ rest, x < 10 := fun x hx => h x (List.mem_cons_of_mem d hx)
    simp only [List.map_cons, ih hrest, List.cons.injEq, and_true]
    rw [digitChar_toNat d hd]
    omega
theorem fieldDec_fieldEnc (n : Nat) : fieldDec (fieldEnc n) = n := by
  simp only [fieldDec, fieldEnc, digits_map_roundtrip _ (natDigits_lt (n + 1)),
    unDigits_natDigits]
  omega
theorem fieldEnc_ne_nil (n : Nat) : fieldEnc n ≠ [] := by
  simp [fieldEnc, natDigits_succ_ne_nil n]
theorem mem_fieldEnc_code {c : Char} {n : Nat} (h : c ∈ fieldEnc n) :
    48 ≤ c.toNat ∧ c.toNat < 58 := by
  simp only [fieldEnc, List.mem_map] at h
  obtain ⟨d, hd, rfl⟩ := h
  have hlt := natDigits_lt (n + 1) d hd
  rw [digitChar_toNat d hlt]
  omega
theorem mem_escapeChars_code {c : Char} : ∀ {u : List Char}, c ∈ escapeChars u →
    c = '-' ∨ (48 ≤ c.toNat ∧ c.toNat < 58) := by
  intro u
  induction u with
  | nil => intro h; simp [escapeChars] at h
  | cons a rest ih =>
    cases rest with
    | nil =>
      intro h
      exact Or.inr (mem_fieldEnc_code h)
    | cons b rest2 =>
      intro h
      simp only [escapeChars, List.mem_append, List.mem_cons] at h
      rcases h with h | h | h
      · exact Or.inr (mem_fieldEnc_code h)
      · exact Or.inl h
      · exact ih h
theorem not_mem_fieldEnc {c : Char} {n : Nat} (hc : c.toNat < 48 ∨ 58 ≤ c.toNat) :
    c ∉ fieldEnc n := by
  intro h
  have := mem_fieldEnc_code h
  omega
theorem not_mem_escapeChars {c : Char} {u : List Char}
    (hc : c.toNat ≠ 45 ∧ (c.toNat < 48 ∨ 58 ≤ c.toNat)) : c ∉ escapeChars u := by
  intro h
  rcases mem_escapeChars_code h with h45 | hrange
  · subst h45
    exact hc.1 rfl
  · omega
theorem escapeChars_ne_nil : ∀ {u : List Char}, u ≠ [] → escapeChars u ≠ [] := by
  intro u hu
  cases u with
  | nil => exact absurd rfl hu
  | cons a rest =>
    cases rest with
    | nil => exact fieldEnc_ne_nil a.toNat
    | cons b rest2 =>
      simp only [escapeChars]
      intro h
      exact fieldEnc_ne_nil a.toNat (List.append_eq_nil.mp h).1
theorem splitDash_escapeChars : ∀ (u : List Char), u ≠ [] →
    splitOnChar '-' (escapeChars u) = u.map (fun ch => fieldEnc ch.toNat) := by
  intro u
  induction u with
  | nil => intro h; exact absurd rfl h
  | cons a rest ih =>
    intro _
    cases rest with
    | nil =>
      simp only [escapeChars, List.map_cons, List.map_nil]
      exact splitOnChar_eq_single (not_mem_fieldEnc (by decide))
    | cons b rest2 =>
      simp only [escapeChars, List.map_cons]
      rw [splitOnChar_append _ (not_mem_fieldEnc (by decide)), ih (by simp)]
      simp
theorem unescape_escape (u : List Char) : unescapeChars (escapeChars u) = u := by
  cases hu : u with
  | nil => rfl
  | cons a rest =>
    have hne : u ≠ [] := by simp [hu]
    rw [← hu]
    unfold unescapeChars
    rw [if_neg (escapeChars_ne_nil hne), splitDash_escapeChars u hne, List.map_map]
    have : ∀ ch : Char, (fun f => Char.ofNat (fieldDec f)) (fieldEnc ch.toNat) = ch := by
      intro ch
      simp only [fieldDec_fieldEnc, Char.ofNat_toNat]
    simp [Function.comp_def, this]
theorem mem_claimsSeg_code {c : Char} {cl : TokenClaims} (h : c ∈ claimsSeg cl) :
    c = '_' ∨ c = '-' ∨ (48 ≤ c.toNat ∧ c.toNat < 58) := by
  unfold claimsSeg at h
  rcases List.mem_append.mp h with h | h
  · exact Or.inr (Or.inr (mem_fieldEnc_code h))
  rcases List.mem_cons.mp h with h | h
  · exact Or.inl h
  rcases List.mem_append.mp h with h | h
  · rcases mem_escapeChars_code h with h2 | h2
    · exact Or.inr (Or.inl h2)
    · exact Or.inr (Or.inr h2)
  rcases List.mem_cons.mp h with h | h
  · exact Or.inl h
  rcases List.mem_append.mp h with h | h
  · exact Or.inr (Or.inr (mem_fieldEnc_code h))
  rcases List.mem_cons.mp h with h | h
  · exact Or.inl h
  exact Or.inr (Or.inr (mem_fieldEnc_code h))
theorem not_mem_claimsSeg {c : Char} (cl : TokenClaims)
    (hc : c.toNat ≠ 45 ∧ c.toNat ≠ 95 ∧ (c.toNat < 48 ∨ 58 ≤ c.toNat)) :
    c ∉ claimsSeg cl := by
  intro h
  rcases mem_claimsSeg_code h with h1 | h1 | h1
  · subst h1
    exact hc.2.1 rfl
  · subst h1
    exact hc.1 rfl
  · omega
theorem parseClaims_claimsSeg (c : TokenClaims) : parseClaims (claimsSeg c) = some c := by
  have h1 : ('_' : Char) ∉ fieldEnc c.id := not_mem_fieldEnc (by decide)
  have h2 : ('_' : Char) ∉ escapeChars c.username.data :=
    not_mem_escapeChars (by decide)
  have h3 : ('_' : Char) ∉ fieldEnc c.iat := not_mem_fieldEnc (by decide)
  have h4 : ('_' : Char) ∉ fieldEnc c.exp := not_mem_fieldEnc (by decide)
  unfold parseClaims claimsSeg
  rw [splitOnChar_append _ h1, splitOnChar_append _ h2, splitOnChar_append _ h3,
    splitOnChar_eq_single h4]
  simp only [fieldDec_fieldEnc, unescape_escape]
theorem not_dot_mem_macSig {secret payload : List Char} :
    ('.' : Char) ∉ macSig secret payload :=
  not_mem_escapeChars (by decide)
/-- Verifying a token produced by `signToken` with the same secret yields
the embedded claims before `exp` and an expiry error from `exp` on. -/
theorem jwtVerify_signToken (secret : String) (c : TokenClaims) (now : Nat) :
    jwtVerify secret (signToken secret c) now =
      if c.exp ≤ now then Except.error JwtError.expired else Except.ok c := by
  have hhdr : ('.' : Char) ∉ "JWT".data := by decide
  have hpay : ('.' : Char) ∉ claimsSeg c := not_mem_claimsSeg c (by decide)
  unfold jwtVerify signToken
  rw [show (String.mk ("JWT".data ++ ('.' :: (claimsSeg c ++ ('.' ::
      macSig secret.data (claimsSeg c)))))).data =
      "JWT".data ++ ('.' :: (claimsSeg c ++ ('.' ::
      macSig secret.data (claimsSeg c)))) from rfl]
  rw [splitOnChar_append _ hhdr, splitOnChar_append _ hpay,
    splitOnChar_eq_single not_dot_mem_macSig]
  simp [parseClaims_claimsSeg]
theorem signToken_no_space (secret : String) (c : TokenClaims) :
    (' ' : Char) ∉ (signToken secret c).data := by
  have h2 : (' ' : Char) ∉ claimsSeg c := not_mem_claimsSeg c (by decide)
  have h3 : (' ' : Char) ∉ macSig secret.data (claimsSeg c) :=
    not_mem_escapeChars (by decide)
  intro h
  rw [show (signToken secret c).data =
      "JWT".data ++ ('.' :: (claimsSeg c ++ ('.' ::
      macSig secret.data (claimsSeg c)))) from rfl] at h
  rcases List.mem_append.mp h with h | h
  · exact absurd h (by decide)
  rcases List.mem_cons.mp h with h | h
  · exact absurd h (by decide)
  rcases List.mem_append.mp h with h | h
  · exact h2 h
  rcases List.mem_cons.mp h with h | h
  · exact absurd h (by decide)
  exact h3 h
theorem falsy_eq_false {x : Option String} (h : falsy x = false) :
    ∃ s, x = some s ∧ s ≠ "" := by
  cases x with
  | none => simp [falsy] at h
  | some s =>
    refine ⟨s, rfl, ?_⟩
    simpa [falsy] using h
theorem falsy_some_ne {s : String} (h : s ≠ "") : falsy (some s) = false := by
  simp [falsy, h]
/-- Exhaustive description of one Register call: either a failure that
returns the store untouched with the corresponding error response, or
the success that appends the single new record with id
`users.length + 1`. -/
theorem register_result (hasher : Hasher) (users : List Account) (u? p? : Option String) :
    register hasher users u? p? = (users, mkMsg 400 "Se requiere usuario y contraseña") ∨
    register hasher users u? p? = (users, mkMsg 409 "El usuario ya existe") ∨
    register hasher users u? p? = (users, mkMsg 500 "Error interno del servidor") ∨
    ∃ u p hp, u? = some u ∧ p? = some p ∧ u ≠ "" ∧ p ≠ "" ∧
      users.find? (fun x => x.username == u) = none ∧
      hasher.hash p = Except.ok hp ∧
      register hasher users u? p? =
        (users ++ [⟨users.length + 1, u, hp⟩], mkMsg 201 "Usuario registrado exitosamente") := by
  by_cases hf : (falsy u? || falsy p?) = true
  · left
    unfold register
    rw [if_pos hf]
  · have hfu : falsy u? = false := by
      rcases Bool.or_eq_false_iff.mp (Bool.not_eq_true _ |>.mp hf) with ⟨h1, _⟩
      exact h1
    have hfp : falsy p? = false := by
      rcases Bool.or_eq_false_iff.mp (Bool.not_eq_true _ |>.mp hf) with ⟨_, h2⟩
      exact h2
    obtain ⟨u, rfl, hu⟩ := falsy_eq_false hfu
    obtain ⟨p, rfl, hp⟩ := falsy_eq_false hfp
    rcases hfind : users.find? (fun x => x.username == u) with _ | a
    · rcases hh : hasher.hash p with e | hashed
      · right; right; left
        unfold register
        rw [if_neg hf]
        simp [hfind, hh]
      · right; right; right
        refine ⟨u, p, hashed, rfl, rfl, hu, hp, hfind, hh, ?_⟩
        unfold register
        rw [if_neg hf]
        simp [hfind, hh]
    · right; left
      unfold register
      rw [if_neg hf]
      simp [hfind]
/-- Exhaustive description of one Login call: one of the three failure
responses (none of which carries a token), or the success response
carrying a one-hour token for the account found in the store. -/
theorem login_result (hasher : Hasher) (users : List Account) (u? p? : Option String)
    (now : Nat) :
    login hasher users u? p? now = mkMsg 400 "Se requiere usuario y contraseña" ∨
    login hasher users u? p? now = mkMsg 401 "Error en la autenticación" ∨
    login hasher users u? p? now = mkMsg 500 "Error interno del servidor" ∨
    ∃ u p a, u? = some u ∧ p? = some p ∧ u ≠ "" ∧ p ≠ "" ∧
      users.find? (fun x => x.username == u) = some a ∧
      hasher.compare p a.password = Except.ok true ∧
      login hasher users u? p? now =
        ⟨200, "Autenticación satisfactoria",
          some (signToken JWT_SECRET ⟨a.id, a.username, now, now + 3600⟩), none⟩ := by
  by_cases hf : (falsy u? || falsy p?) = true
  · left
    unfold login
    rw [if_pos hf]
  · have hfu : falsy u? = false := by
      rcases Bool.or_eq_false_iff.mp (Bool.not_eq_true _ |>.mp hf) with ⟨h1, _⟩
      exact h1
    have hfp : falsy p? = false := by
      rcases Bool.or_eq_false_iff.mp (Bool.not_eq_true _ |>.mp hf) with ⟨_, h2⟩
      exact h2
    obtain ⟨u, rfl, hu⟩ := falsy_eq_false hfu
    obtain ⟨p, rfl, hp⟩ := falsy_eq_false hfp
    rcases hfind : users.find? (fun x => x.username == u) with _ | a
    · right; left
      unfold login
      rw [if_neg hf]
      simp [hfind]
    · rcases hcmp : hasher.compare p a.password with e | ok
      · right; right; left
        unfold login
        rw [if_neg hf]
        simp [hfind, hcmp]
      · cases ok with
        | false =>
          right; left
          unfold login
          rw [if_neg hf]
          simp [hfind, hcmp]
        | true =>
          right; right; right
          refine ⟨u, p, a, rfl, rfl, hu, hp, hfind, hcmp, ?_⟩
          unfold login
          rw [if_neg hf]
          simp [hfind, hcmp]
theorem register_ok {hasher : Hasher} {users : List Account} {u p hp : String}
    (hu : u ≠ "") (hp2 : p ≠ "")
    (hfind : users.find? (fun x => x.username == u) = none)
    (hh : hasher.hash p = Except.ok hp) :
    register hasher users (some u) (some p) =
      (users ++ [⟨users.length + 1, u, hp⟩],
        mkMsg 201 "Usuario registrado exitosamente") := by
  unfold register
  rw [if_neg (by simp [falsy_some_ne hu, falsy_some_ne hp2])]
  simp [hfind, hh]
theorem register_dup {hasher : Hasher} {users : List Account} {u : String} {p? : Option String}
    {a : Account} (hu : u ≠ "") (hp2 : falsy p? = false)
    (hfind : users.find? (fun x => x.username == u) = some a) :
    register hasher users (some u) p? = (users, mkMsg 409 "El usuario ya existe") := by
  unfold register
  rw [if_neg (by simp [falsy_some_ne hu, hp2])]
  simp [hfind]
theorem login_ok {hasher : Hasher} {users : List Account} {u p : String} {a : Account}
    {now : Nat} (hu : u ≠ "") (hp : p ≠ "")
    (hfind : users.find? (fun x => x.username == u) = some a)
    (hcmp : hasher.compare p a.password = Except.ok true) :
    login hasher users (some u) (some p) now =
      ⟨200, "Autenticación satisfactoria",
        some (signToken JWT_SECRET ⟨a.id, a.username, now, now + 3600⟩), none⟩ := by
  unfold login
  rw [if_neg (by simp [falsy_some_ne hu, falsy_some_ne hp])]
  simp [hfind, hcmp]
theorem login_miss {hasher : Hasher} {users : List Account} {u p : String} {now : Nat}
    (hu : u ≠ "") (hp : p ≠ "")
    (hfind : users.find? (fun x => x.username == u) = none) :
    login hasher users (some u) (some p) now = mkMsg 401 "Error en la autenticación" := by
  unfold login
  rw [if_neg (by simp [falsy_some_ne hu, falsy_some_ne hp])]
  simp [hfind]
theorem login_badpw {hasher : Hasher} {users : List Account} {u p : String} {a : Account}
    {now : Nat} (hu : u ≠ "") (hp : p ≠ "")
    (hfind : users.find? (fun x => x.username == u) = some a)
    (hcmp : hasher.compare p a.password = Except.ok false) :
    login hasher users (some u) (some p) now = mkMsg 401 "Error en la autenticación" := by
  unfold login
  rw [if_neg (by simp [falsy_some_ne hu, falsy_some_ne hp])]
  simp [hfind, hcmp]
theorem string_append_space_data (s t : String) :
    (s ++ " " ++ t).data = s.data ++ (' ' :: t.data) := by
  show (s.data ++ [' ']) ++ t.data = s.data ++ (' ' :: t.data)
  rw [List.append_assoc]
  rfl
theorem string_append_space_ne (s t : String) : s ++ " " ++ t ≠ "" := by
  intro he
  have h2 : (s ++ " " ++ t).data = "".data := congrArg String.data he
  rw [string_append_space_data] at h2
  simp at h2
theorem protegido_bearer_ok {s t : String} {now : Nat} {c : TokenClaims}
    (hs : (' ' : Char) ∉ s.data) (ht : (' ' : Char) ∉ t.data)
    (hv : jwtVerify JWT_SECRET t now = Except.ok c) :
    protegido (some (s ++ " " ++ t)) now =
      ⟨200, "Ruta protegida accedida exitosamente", none, some c⟩ := by
  simp only [protegido]
  rw [if_neg (string_append_space_ne s t), string_append_space_data,
    splitOnChar_append _ hs, splitOnChar_eq_single ht]
  simp only [List.getElem?_cons_succ, List.getElem?_cons_zero]
  rw [show String.mk t.data = t from rfl]
  simp [hv]
theorem protegido_bearer_err {s t : String} {now : Nat} {e : JwtError}
    (hs : (' ' : Char) ∉ s.data) (ht : (' ' : Char) ∉ t.data)
    (hv : jwtVerify JWT_SECRET t now = Except.error e) :
    protegido (some (s ++ " " ++ t)) now = mkMsg 401 "Token inválido" := by
  simp only [protegido]
  rw [if_neg (string_append_space_ne s t), string_append_space_data,
    splitOnChar_append _ hs, splitOnChar_eq_single ht]
  simp only [List.getElem?_cons_succ, List.getElem?_cons_zero]
  rw [show String.mk t.data = t from rfl]
  simp [hv]
theorem protegido_no_space {h : String} {now : Nat} (hne : h ≠ "")
    (hs : (' ' : Char) ∉ h.data) :
    protegido (some h) now = mkMsg 401 "Token inválido" := by
  simp only [protegido]
  rw [if_neg hne, splitOnChar_eq_single hs]
  rfl
/-! ### The claims -/
/-- Claim C1: for credentials accepted by Register (both fields
non-empty, username not yet stored), registration answers 201, a Login
with exactly those credentials answers 200 with a token, and the
protected route presented that token before its expiry answers 200 with
claims whose id and username are those of the registered account
(`users.length + 1` and the registered username). -/
theorem register_login_authorize_roundtrip
    (users : List Account) (u p : String) (now tv : Nat)
    (hu : u ≠ "") (hp : p ≠ "")
    (hnew : users.find? (fun x => x.username == u) = none)
    (htv : tv < now + 3600) :
    (register bcrypt users (some u) (some p)).2.status = 201 ∧
    ∃ t,
      login bcrypt (register bcrypt users (some u) (some p)).1 (some u) (some p) now =
        ⟨200, "Autenticación satisfactoria", some t, none⟩ ∧
      protegido (some ("Bearer " ++ t)) tv =
        ⟨200, "Ruta protegida accedida exitosamente", none,
          some ⟨users.length + 1, u, now, now + 3600⟩⟩ := by
  have hreg := @register_ok bcrypt users u p (bcryptHash p) hu hp hnew rfl
  rw [hreg]
  refine ⟨rfl, signToken JWT_SECRET ⟨users.length + 1, u, now, now + 3600⟩, ?_, ?_⟩
  · have hfind2 : (users ++ [Account.mk (users.length + 1) u (bcryptHash p)]).find?
        (fun x => x.username == u) = some (Account.mk (users.length + 1) u (bcryptHash p)) := by
      rw [List.find?_append, hnew]
      simp
    have hcmp : bcrypt.compare p
        (Account.mk (users.length + 1) u (bcryptHash p)).password = Except.ok true := by
      simp [bcrypt]
    exact @login_ok bcrypt (users ++ [⟨users.length + 1, u, bcryptHash p⟩]) u p
      ⟨users.length + 1, u, bcryptHash p⟩ now hu hp hfind2 hcmp
  · have hv : jwtVerify JWT_SECRET
        (signToken JWT_SECRET ⟨users.length + 1, u, now, now + 3600⟩) tv =
        Except.ok ⟨users.length + 1, u, now, now + 3600⟩ := by
      rw [jwtVerify_signToken]
      exact if_neg (show ¬(now + 3600 ≤ tv) by omega)
    have hbs : ("Bearer " : String) = "Bearer" ++ " " := by decide
    rw [hbs]
    exact @protegido_bearer_ok "Bearer"
      (signToken JWT_SECRET ⟨users.length + 1, u, now, now + 3600⟩) tv
      ⟨users.length + 1, u, now, now + 3600⟩ (by decide) (signToken_no_space _ _) hv
/-- Claim C1 witness: the concrete run of register, login and the
protected route with the account alice. -/
theorem register_login_authorize_roundtrip_witness :
    (register bcrypt [] (some "alice") (some "s3cret")).2.status = 201 ∧
    ∃ t,
      login bcrypt (register bcrypt [] (some "alice") (some "s3cret")).1
        (some "alice") (some "s3cret") 0 =
        ⟨200, "Autenticación satisfactoria", some t, none⟩ ∧
      protegido (some ("Bearer " ++ t)) 3599 =
        ⟨200, "Ruta protegida accedida exitosamente", none, some ⟨1, "alice", 0, 3600⟩⟩ :=
  register_login_authorize_roundtrip [] "alice" "s3cret" 0 3599
    (by decide) (by decide) (by decide) (by decide)
/-- Claim C2: with any store, a Login for an absent username and a Login
for a present username with a wrong password produce the identical
response, the generic 401 body. -/
theorem login_enumeration_resistance
    (users : List Account) (u1 p1 u2 p2 : String) (n1 n2 : Nat) (a : Account)
    (hu1 : u1 ≠ "") (hp1 : p1 ≠ "") (hu2 : u2 ≠ "") (hp2 : p2 ≠ "")
    (hmiss : users.find? (fun x => x.username == u1) = none)
    (hhit : users.find? (fun x => x.username == u2) = some a)
    (hwrong : a.password ≠ bcryptHash p2) :
    login bcrypt users (some u1) (some p1) n1 = login bcrypt users (some u2) (some p2) n2 ∧
    login bcrypt users (some u1) (some p1) n1 = mkMsg 401 "Error en la autenticación" := by
  have h1 := @login_miss bcrypt users u1 p1 n1 hu1 hp1 hmiss
  have hcmp : bcrypt.compare p2 a.password = Except.ok false := by
    simp [bcrypt, hwrong]
  have h2 := @login_badpw bcrypt users u2 p2 a n2 hu2 hp2 hhit hcmp
  rw [h1, h2]
  exact ⟨rfl, rfl⟩
/-- Claim C2 witness: "ghost" (absent) and "bob" (present, wrong
password) get the byte-identical 401 response. -/
theorem login_enumeration_resistance_witness :
    login bcrypt [⟨1, "bob", bcryptHash "pw"⟩] (some "ghost") (some "x") 5 =
      login bcrypt [⟨1, "bob", bcryptHash "pw"⟩] (some "bob") (some "wrong") 9 ∧
    login bcrypt [⟨1, "bob", bcryptHash "pw"⟩] (some "ghost") (some "x") 5 =
      mkMsg 401 "Error en la autenticación" :=
  login_enumeration_resistance [⟨1, "bob", bcryptHash "pw"⟩] "ghost" "x" "bob" "wrong"
    5 9 ⟨1, "bob", bcryptHash "pw"⟩ (by decide) (by decide) (by decide) (by decide)
    (by decide) (by decide) (by decide)
/-- Claim C3 counterexample: after a successful Register of "alice", a
second Register for "alice" supplying the empty-string password is
rejected by input validation with status 400, not with the 409
DuplicateUsername response the claim asserts regardless of password. -/
theorem register_duplicate_counterexample :
    (register bcrypt [] (some "alice") (some "pw")).2.status = 201 ∧
    (register bcrypt (register bcrypt [] (some "alice") (some "pw")).1
      (some "alice") (some "")).2.status = 400 ∧
    ¬ (register bcrypt (register bcrypt [] (some "alice") (some "pw")).1
      (some "alice") (some "")).2.status = 409 := by decide
/-- Claim C3 (amended): a valid unused pair registers once with 201, and
any subsequent Register for the same username with a non-falsy password
— under any hasher and any later store still containing that username —
fails with 409 DuplicateUsername and leaves the store unchanged. -/
theorem register_succeeds_once_then_duplicate
    (users : List Account) (u p : String)
    (hu : u ≠ "") (hp : p ≠ "")
    (hnew : users.find? (fun x => x.username == u) = none) :
    (register bcrypt users (some u) (some p)).2.status = 201 ∧
    ∀ (hasher : Hasher) (users2 : List Account) (p2? : Option String),
      falsy p2? = false →
      (∃ b ∈ users2, b.username = u) →
      register hasher users2 (some u) p2? = (users2, mkMsg 409 "El usuario ya existe") := by
  constructor
  · rw [@register_ok bcrypt users u p (bcryptHash p) hu hp hnew rfl]
    rfl
  · intro hasher users2 p2? hp2 ⟨b, hb, hbu⟩
    rcases hf : users2.find? (fun x => x.username == u) with _ | a
    · have := List.find?_eq_none.mp hf b hb
      rw [hbu] at this
      simp at this
    · exact @register_dup hasher users2 u p2? a hu hp2 hf
/-- Claim C3 witness: alice registers once, then a duplicate Register
with a different password is answered 409 with the store unchanged. -/
theorem register_succeeds_once_then_duplicate_witness :
    (register bcrypt [] (some "alice") (some "pw")).2.status = 201 ∧
    register bcrypt (register bcrypt [] (some "alice") (some "pw")).1
      (some "alice") (some "other") =
      ((register bcrypt [] (some "alice") (some "pw")).1,
        mkMsg 409 "El usuario ya existe") := by
  have h := register_succeeds_once_then_duplicate [] "alice" "pw"
    (by decide) (by decide) (by decide)
  refine ⟨h.1, h.2 bcrypt (register bcrypt [] (some "alice") (some "pw")).1
    (some "other") (by decide) ?_⟩
  exact ⟨⟨1, "alice", bcryptHash "pw"⟩, by decide, rfl⟩
/-- Claim C4: a token issued by Login embeds iat = now and
exp = now + 3600 (fixed one-hour TTL); verifying it strictly after exp
fails with the expiry error, while verifying it one instant before exp
succeeds with the full claims. -/
theorem token_ttl_and_expiry_boundary
    (hasher : Hasher) (users : List Account) (u? p? : Option String) (now : Nat)
    (t : String) (h : (login hasher users u? p? now).token = some t) :
    ∃ c : TokenClaims, t = signToken JWT_SECRET c ∧ c.iat = now ∧ c.exp = now + 3600 ∧
      (∀ tv, c.exp < tv → jwtVerify JWT_SECRET t tv = Except.error JwtError.expired) ∧
      jwtVerify JWT_SECRET t (c.exp - 1) = Except.ok c := by
  rcases login_result hasher users u? p? now with h4 | h4 | h4 |
    ⟨u, p, a, _, _, _, _, _, _, h4⟩ <;> rw [h4] at h
  · exact absurd h (by simp [mkMsg])
  · exact absurd h (by simp [mkMsg])
  · exact absurd h (by simp [mkMsg])
  · have ht : t = signToken JWT_SECRET ⟨a.id, a.username, now, now + 3600⟩ :=
      (Option.some.injEq _ _ ▸ h).symm
    refine ⟨⟨a.id, a.username, now, now + 3600⟩, ht, rfl, rfl, ?_, ?_⟩
    · intro tv htv
      rw [ht, jwtVerify_signToken]
      exact if_pos (show now + 3600 ≤ tv by exact htv.le)
    · rw [ht, jwtVerify_signToken]
      exact if_neg (show ¬(now + 3600 ≤ now + 3600 - 1) by omega)
/-- Claim C4 witness: the token from bob's login at time 100 carries
iat = 100 and exp = 3700, fails verification at 3701 and succeeds at
3699. -/
theorem token_ttl_and_expiry_boundary_witness :
    ∃ c : TokenClaims,
      signToken JWT_SECRET ⟨1, "bob", 100, 3700⟩ = signToken JWT_SECRET c ∧
      c.iat = 100 ∧ c.exp = 100 + 3600 ∧
      (∀ tv, c.exp < tv →
        jwtVerify JWT_SECRET (signToken JWT_SECRET ⟨1, "bob", 100, 3700⟩) tv =
          Except.error JwtError.expired) ∧
      jwtVerify JWT_SECRET (signToken JWT_SECRET ⟨1, "bob", 100, 3700⟩) (c.exp - 1) =
        Except.ok c :=
  token_ttl_and_expiry_boundary bcrypt [⟨1, "bob", bcryptHash "pw"⟩]
    (some "bob") (some "pw") 100 (signToken JWT_SECRET ⟨1, "bob", 100, 3700⟩) (by decide)
/-- Claim C5: a missing (or falsy) bearer header answers 403; whenever a
token substring was extracted but its verification fails — for whichever
of the three internal reasons — the response is the single generic 401
body, and the same 401 results when the header has no space so that
verification runs on an undefined token; only successful verification
returns the identity claims. -/
theorem authorize_failure_mapping (now : Nat) :
    protegido none now = mkMsg 403 "Token no proporcionado" ∧
    protegido (some "") now = mkMsg 403 "Token no proporcionado" ∧
    (∀ (h : String) (tok : List Char) (e : JwtError), h ≠ "" →
      (splitOnChar ' ' h.data)[1]? = some tok →
      jwtVerify JWT_SECRET (String.mk tok) now = Except.error e →
      protegido (some h) now = mkMsg 401 "Token inválido") ∧
    (∀ h : String, h ≠ "" → (splitOnChar ' ' h.data)[1]? = none →
      protegido (some h) now = mkMsg 401 "Token inválido") ∧
    (∀ (h : String) (tok : List Char) (c : TokenClaims), h ≠ "" →
      (splitOnChar ' ' h.data)[1]? = some tok →
      jwtVerify JWT_SECRET (String.mk tok) now = Except.ok c →
      protegido (some h) now =
        ⟨200, "Ruta protegida accedida exitosamente", none, some c⟩) := by
  refine ⟨rfl, rfl, ?_, ?_, ?_⟩
  · intro h tok e hne hsp hv
    simp only [protegido]
    rw [if_neg hne, hsp]
    simp [hv]
  · intro h hne hsp
    simp only [protegido]
    rw [if_neg hne, hsp]
  · intro h tok c hne hsp hv
    simp only [protegido]
    rw [if_neg hne, hsp]
    simp [hv]
/-- Claim C5 witness: the three failure shapes at concrete headers. -/
theorem authorize_failure_mapping_witness :
    protegido none 7 = mkMsg 403 "Token no proporcionado" ∧
    protegido (some "") 7 = mkMsg 403 "Token no proporcionado" ∧
    protegido (some "Bearer garbage") 7 = mkMsg 401 "Token inválido" ∧
    protegido (some "sinespacios") 7 = mkMsg 401 "Token inválido" := by
  refine ⟨(authorize_failure_mapping 7).1, (authorize_failure_mapping 7).2.1, ?_, ?_⟩
  · exact (authorize_failure_mapping 7).2.2.1 "Bearer garbage" "garbage".data
      JwtError.malformed (by decide) (by decide) (by decide)
  · exact (authorize_failure_mapping 7).2.2.2.1 "sinespacios" (by decide) (by decide)
theorem goodStore_step (hasher : Hasher) (users : List Account) (op : Op)
    (hg : GoodStore users) : GoodStore (stepStore hasher users op) := by
  cases op with
  | log u p now => exact hg
  | auth h now => exact hg
  | reg u? p? =>
    show GoodStore (register hasher users u? p?).1
    rcases register_result hasher users u? p? with h | h | h |
      ⟨u, p, hp2, hueq, hpeq, hu, hp, hfind, hh, h⟩ <;> rw [h]
    · exact hg
    · exact hg
    · exact hg
    · constructor
      · intro a ha
        rcases List.mem_append.mp ha with ha2 | ha2
        · have := hg.1 a ha2
          simp only [List.length_append, List.length_cons, List.length_nil]
          omega
        · simp only [List.mem_singleton] at ha2
          subst ha2
          simp
      · rw [List.pairwise_append]
        refine ⟨hg.2, by simp, ?_⟩
        intro a ha b hb
        simp only [List.mem_singleton] at hb
        subst hb
        have hid := hg.1 a ha
        have hne := List.find?_eq_none.mp hfind a ha
        simp only [beq_iff_eq] at hne
        exact ⟨by simp only []; omega, by simpa using hne⟩
theorem goodStore_runOps (hasher : Hasher) (ops : List Op) :
    ∀ users, GoodStore users → GoodStore (runOps hasher users ops) := by
  induction ops with
  | nil =>
    intro users hg
    exact hg
  | cons op ops ih =>
    intro users hg
    exact ih _ (goodStore_step hasher users op hg)
theorem stepStore_extends (hasher : Hasher) (users : List Account) (op : Op) :
    ∃ tail, stepStore hasher users op = users ++ tail := by
  cases op with
  | log u p now => exact ⟨[], (List.append_nil users).symm⟩
  | auth h now => exact ⟨[], (List.append_nil users).symm⟩
  | reg u? p? =>
    show ∃ tail, (register hasher users u? p?).1 = users ++ tail
    rcases register_result hasher users u? p? with h | h | h |
      ⟨u, p, hp2, _, _, _, _, _, _, h⟩ <;> rw [h]
    · exact ⟨[], (List.append_nil users).symm⟩
    · exact ⟨[], (List.append_nil users).symm⟩
    · exact ⟨[], (List.append_nil users).symm⟩
    · exact ⟨[⟨users.length + 1, u, hp2⟩], rfl⟩
theorem runOps_extends (hasher : Hasher) : ∀ (ops : List Op) (users : List Account),
    ∃ tail, runOps hasher users ops = users ++ tail := by
  intro ops
  induction ops with
  | nil =>
    intro users
    exact ⟨[], (List.append_nil users).symm⟩
  | cons op ops ih =>
    intro users
    obtain ⟨t0, h0⟩ := stepStore_extends hasher users op
    obtain ⟨t1, h1⟩ := ih (stepStore hasher users op)
    refine ⟨t0 ++ t1, ?_⟩
    show runOps hasher (stepStore hasher users op) ops = users ++ (t0 ++ t1)
    rw [h1, h0, List.append_assoc]
/-- Claim C6: after every sequential sequence of operations from the
empty store, stored accounts have pairwise distinct ids and pairwise
distinct usernames; moreover every run only appends to the store, so a
record is never mutated or removed after its insertion. -/
theorem store_invariant_and_append_only (hasher : Hasher) (ops : List Op) :
    List.Pairwise (fun a b => a.id ≠ b.id ∧ a.username ≠ b.username)
      (runOps hasher [] ops) ∧
    ∀ (users : List Account) (more : List Op),
      ∃ tail, runOps hasher users more = users ++ tail :=
  ⟨(goodStore_runOps hasher ops [] ⟨by simp, List.Pairwise.nil⟩).2,
    fun users more => runOps_extends hasher more users⟩
/-- Claim C7: a Register that does not answer 201 leaves the store
exactly as it was; a Login that does not answer 200 carries no token;
and a throwing hash on otherwise valid input surfaces as the 500
internal error with the store untouched, not as a validation failure. -/
theorem failure_atomicity
    (hasher : Hasher) (users : List Account) (u? p? : Option String) (now : Nat) :
    ((register hasher users u? p?).2.status ≠ 201 →
      (register hasher users u? p?).1 = users) ∧
    ((login hasher users u? p? now).status ≠ 200 →
      (login hasher users u? p? now).token = none) ∧
    (∀ u p, u ≠ "" → p ≠ "" →
      users.find? (fun x => x.username == u) = none →
      hasher.hash p = Except.error () →
      register hasher users (some u) (some p) =
        (users, mkMsg 500 "Error interno del servidor")) := by
  refine ⟨?_, ?_, ?_⟩
  · intro hst
    rcases register_result hasher users u? p? with h | h | h |
      ⟨u, p, hp2, _, _, _, _, _, _, h⟩
    · rw [h]
    · rw [h]
    · rw [h]
    · rw [h] at hst
      exact absurd rfl hst
  · intro hst
    rcases login_result hasher users u? p? now with h | h | h |
      ⟨u, p, a, _, _, _, _, _, _, h⟩
    · rw [h]
      rfl
    · rw [h]
      rfl
    · rw [h]
      rfl
    · rw [h] at hst
      exact absurd rfl hst
  · intro u p hu hp hfind hh
    unfold register
    rw [if_neg (by simp [falsy_some_ne hu, falsy_some_ne hp])]
    simp [hfind, hh]
/-- Claim C7 witness: a throwing hasher leaves the empty store empty and
answers 500, and a failed login carries no token. -/
theorem failure_atomicity_witness :
    (register badHasher [] (some "alice") (some "pw")).1 = ([] : List Account) ∧
    (login bcrypt [] (some "ghost") (some "pw") 3).token = none ∧
    register badHasher [] (some "alice") (some "pw") =
      ([], mkMsg 500 "Error interno del servidor") :=
  ⟨(failure_atomicity badHasher [] (some "alice") (some "pw") 0).1 (by decide),
    (failure_atomicity bcrypt [] (some "ghost") (some "pw") 3).2.1 (by decide),
    (failure_atomicity badHasher [] (some "alice") (some "pw") 0).2.2 "alice" "pw"
      (by decide) (by decide) (by decide) (by decide)⟩
/-- Claim C8: authorization is idempotent and stateless: running the
same authorization twice in sequence leaves the store exactly as it was
and produces two identical responses, both carrying the claims of the
(unexpired, successfully verified) token. -/
theorem authorize_idempotent
    (hasher : Hasher) (users : List Account) (hd : Option String) (now : Nat)
    (c : TokenClaims) (h : (protegido hd now).user = some c) :
    runOps hasher users [Op.auth hd now, Op.auth hd now] = users ∧
    ∃ r, runTrace hasher users [Op.auth hd now, Op.auth hd now] = [r, r] ∧
      r.user = some c :=
  ⟨rfl, protegido hd now, rfl, h⟩
/-- Claim C8 witness: authorizing twice with a fresh token for alice on
the empty store changes nothing and repeats the same 200 response. -/
theorem authorize_idempotent_witness :
    runOps bcrypt []
      [Op.auth (some ("Bearer " ++ signToken JWT_SECRET ⟨1, "alice", 0, 3600⟩)) 10,
        Op.auth (some ("Bearer " ++ signToken JWT_SECRET ⟨1, "alice", 0, 3600⟩)) 10] =
      ([] : List Account) ∧
    ∃ r, runTrace bcrypt []
        [Op.auth (some ("Bearer " ++ signToken JWT_SECRET ⟨1, "alice", 0, 3600⟩)) 10,
          Op.auth (some ("Bearer " ++ signToken JWT_SECRET ⟨1, "alice", 0, 3600⟩)) 10] =
        [r, r] ∧
      r.user = some ⟨1, "alice", 0, 3600⟩ :=
  authorize_idempotent bcrypt []
    (some ("Bearer " ++ signToken JWT_SECRET ⟨1, "alice", 0, 3600⟩)) 10
    ⟨1, "alice", 0, 3600⟩ (by decide)
/-- Claim C9 (violated by the code): the register handler is exactly the
check phase, then the awaited hash, then the unconditional insert phase;
interleaving two Register calls for "alice" so that both duplicate
checks run before either insert — the event-loop order when both hashes
are in flight across the `await` — lets both pass the check, both
answer 201, and leaves two accounts both named "alice" with the
uniqueness invariant broken.  A sequential second call would have been
answered 409 instead. -/
theorem concurrent_register_not_atomic :
    (∀ (hasher : Hasher) (users : List Account) (u? p? : Option String),
      register hasher users u? p? =
        match regCheckPhase users u? p? with
        | Except.error r => (users, r)
        | Except.ok un =>
          match hasher.hash (p?.getD "") with
          | Except.error _ => (users, mkMsg 500 "Error interno del servidor")
          | Except.ok hp => regInsertPhase users un hp) ∧
    regCheckPhase [] (some "alice") (some "p1") = Except.ok "alice" ∧
    regCheckPhase [] (some "alice") (some "p2") = Except.ok "alice" ∧
    (regInsertPhase [] "alice" (bcryptHash "p1")).2.status = 201 ∧
    (regInsertPhase (regInsertPhase [] "alice" (bcryptHash "p1")).1 "alice"
      (bcryptHash "p2")).2.status = 201 ∧
    (regInsertPhase (regInsertPhase [] "alice" (bcryptHash "p1")).1 "alice"
      (bcryptHash "p2")).1 =
      [⟨1, "alice", bcryptHash "p1"⟩, ⟨2, "alice", bcryptHash "p2"⟩] ∧
    ((regInsertPhase (regInsertPhase [] "alice" (bcryptHash "p1")).1 "alice"
      (bcryptHash "p2")).1).map Account.username = ["alice", "alice"] ∧
    register bcrypt (regInsertPhase [] "alice" (bcryptHash "p1")).1
      (some "alice") (some "p2") =
      ((regInsertPhase [] "alice" (bcryptHash "p1")).1, mkMsg 409 "El usuario ya existe") := by
  refine ⟨?_, by decide, by decide, by decide, by decide, by decide, by decide, by decide⟩
  intro hasher users u? p?
  by_cases hf : (falsy u? || falsy p?) = true
  · simp [register, regCheckPhase, hf]
  · rcases hfind : users.find? (fun x => x.username == u?.getD "") with _ | a
    · rcases hh : hasher.hash (p?.getD "") with e | hp <;>
        simp [register, regCheckPhase, regInsertPhase, hf, hfind, hh]
    · simp [register, regCheckPhase, hf, hfind]
/-- Claim C10 (implicit behaviour): the middleware never checks the
scheme word — any space-free scheme prefix, the standard one or not, in
front of a valid token authorizes successfully — while any non-empty
header containing no space at all, in particular a bare valid token
without a scheme prefix, is answered 401 because the substring after the
first space is undefined. -/
theorem bearer_scheme_unchecked
    (scheme t : String) (now : Nat) (c : TokenClaims)
    (hs : (' ' : Char) ∉ scheme.data) (ht : (' ' : Char) ∉ t.data)
    (hv : jwtVerify JWT_SECRET t now = Except.ok c) :
    protegido (some (scheme ++ " " ++ t)) now =
      ⟨200, "Ruta protegida accedida exitosamente", none, some c⟩ ∧
    ∀ h : String, h ≠ "" → (' ' : Char) ∉ h.data →
      protegido (some h) now = mkMsg 401 "Token inválido" :=
  ⟨@protegido_bearer_ok scheme t now c hs ht hv,
    fun h hne hsp => @protegido_no_space h now hne hsp⟩
/-- Claim C10 witness: the scheme "Basic" in front of a valid token is
accepted, and the same bare valid token without any scheme is answered
401. -/
theorem bearer_scheme_unchecked_witness :
    protegido (some ("Basic" ++ " " ++ signToken JWT_SECRET ⟨1, "alice", 0, 3600⟩)) 10 =
      ⟨200, "Ruta protegida accedida exitosamente", none, some ⟨1, "alice", 0, 3600⟩⟩ ∧
    protegido (some (signToken JWT_SECRET ⟨1, "alice", 0, 3600⟩)) 10 =
      mkMsg 401 "Token inválido" :=
  ⟨(bearer_scheme_unchecked "Basic" (signToken JWT_SECRET ⟨1, "alice", 0, 3600⟩) 10
      ⟨1, "alice", 0, 3600⟩ (by decide) (by decide) (by decide)).1,
    (bearer_scheme_unchecked "Basic" (signToken JWT_SECRET ⟨1, "alice", 0, 3600⟩) 10
      ⟨1, "alice", 0, 3600⟩ (by decide) (by decide) (by decide)).2
      (signToken JWT_SECRET ⟨1, "alice", 0, 3600⟩) (by decide) (by decide)⟩
